import Mathlib

/-
Verification of the weekly project-task bot (discord_aiops_project_bot.py).

The development shallowly embeds the task store, the claim/completion
state machine, date parsing, week bucketing, the reminder scan and the
announcement lookup.  Dates are modelled as (year, month, day) triples
with the Gregorian calendar rules used by the Python datetime module;
a datetime instant is modelled as the number of seconds from the
proleptic-Gregorian day 0001-01-01 (Python ordinal 1), matching
date.toordinal.  The SQLite task table is modelled as a list of task
records; an SQL UPDATE ... WHERE id = ? is a map that rewrites the
matching records, and a SELECT ... WHERE id = ? is List.find?.
-/

namespace ProjectBot

/-- Gregorian leap-year rule, as used by Python datetime. -/
def isLeap (y : Nat) : Bool :=
  y % 4 == 0 && (y % 100 != 0 || y % 400 == 0)

/-- Number of days of month m (1..12) of year y. -/
def daysInMonth (y m : Nat) : Nat :=
  if m = 2 then (if isLeap y then 29 else 28)
  else if m ∈ [4, 6, 9, 11] then 30
  else 31

/-- Days in year y strictly before month m. -/
def daysBeforeMonth (y m : Nat) : Nat :=
  (List.range (m - 1)).foldl (fun acc k => acc + daysInMonth y (k + 1)) 0

/-- A calendar date, as produced by datetime.date. -/
structure Date where
  year : Nat
  month : Nat
  day : Nat
deriving DecidableEq

/-- Validity of a (year, month, day) triple for the datetime constructor:
year 1..9999, month 1..12, day within the month. -/
def isValidDate (y m d : Nat) : Bool :=
  1 ≤ y && y ≤ 9999 && 1 ≤ m && m ≤ 12 && 1 ≤ d && d ≤ daysInMonth y m

/-- The datetime constructor: a date when the triple is valid, else failure. -/
def mkDate (y m d : Nat) : Option Date :=
  if isValidDate y m d then some ⟨y, m, d⟩ else none

/-- Python date.toordinal: days from 0001-01-01 counted from 1. -/
def toOrdinal (dt : Date) : Nat :=
  let y := dt.year - 1
  y * 365 + y / 4 - y / 100 + y / 400 + daysBeforeMonth dt.year dt.month + dt.day

/-- Python date.weekday on ordinals: Monday = 0 ... Sunday = 6
(ordinal 1, the date 0001-01-01, is a Monday). -/
def weekday (n : Int) : Int := (n + 6) % 7

/-- The week bucket computed by add_task and the week-defaulting commands:
due - timedelta(days=due.weekday()), on ordinals. -/
def week_start (n : Int) : Int := n - weekday n

/-- week_start applied to a calendar date, the composition used at
task-creation time. -/
def week_start_of_date (dt : Date) : Int := week_start (toOrdinal dt)

/-- A row of the tasks table.  claimed_by is stored as a JSON-encoded list
of user ids; it is modelled directly as the decoded list. -/
structure Task where
  id : Nat
  title : String
  description : String
  due_date : String
  created_by : Nat
  created_at : String
  completed : Bool
  claimed_by : List Nat
  week_start : String
deriving DecidableEq

/-- The tasks table. -/
abbrev Store := List Task

/-- SELECT * FROM tasks WHERE id = ? (get_task in the source). -/
def get_task (st : Store) (task_id : Nat) : Option Task :=
  List.find? (fun t => t.id == task_id) st

/-- UPDATE ... WHERE id = ? : rewrite every row whose id matches. -/
def updateTask (st : Store) (task_id : Nat) (f : Task → Task) : Store :=
  List.map (fun t => if t.id == task_id then f t else t) st

/-- claim_task: fetch the task, decode claimed_by, append the user if
absent, write the whole list back.  Returns the written list (None when
the task does not exist).  There is no check of the completed flag. -/
def claim_task (st : Store) (task_id user_id : Nat) : Store × Option (List Nat) :=
  match get_task st task_id with
  | none => (st, none)
  | some task =>
      let claimed := task.claimed_by
      let claimed := if user_id ∈ claimed then claimed else claimed ++ [user_id]
      (updateTask st task_id (fun t => { t with claimed_by := claimed }), some claimed)

/-- unclaim_task: fetch the task, remove the first occurrence of the user
if present, write the whole list back. -/
def unclaim_task (st : Store) (task_id user_id : Nat) : Store × Option (List Nat) :=
  match get_task st task_id with
  | none => (st, none)
  | some task =>
      let claimed := task.claimed_by
      let claimed := if user_id ∈ claimed then List.erase claimed user_id else claimed
      (updateTask st task_id (fun t => { t with claimed_by := claimed }), some claimed)

/-- complete_task: UPDATE tasks SET completed = 1 WHERE id = ?. -/
def complete_task (st : Store) (task_id : Nat) : Store :=
  updateTask st task_id (fun t => { t with completed := true })

/-- Outcome reported by the complete command. -/
inductive CompleteResult where
  | notFound
  | permissionDenied
  | completed
deriving DecidableEq

/-- The complete command (the _complete handler and the complete-button
callbacks): look the task up, and mark it completed exactly when the
requester is a claimer or holds the privileged (manage_messages)
capability; otherwise report a permission failure and leave the store
untouched. -/
def complete_cmd (st : Store) (task_id requester : Nat) (priv : Bool) :
    Store × CompleteResult :=
  match get_task st task_id with
  | none => (st, .notFound)
  | some t =>
      if requester ∈ t.claimed_by ∨ priv = true then
        (complete_task st task_id, .completed)
      else
        (st, .permissionDenied)

/-- The three mutation entry points of the state machine, for statements
that quantify over arbitrary later operations. -/
inductive Op where
  | claim (task_id user_id : Nat)
  | unclaim (task_id user_id : Nat)
  | complete (task_id requester : Nat) (priv : Bool)

/-- Effect of one operation on the store. -/
def applyOp (st : Store) : Op → Store
  | .claim i u => (claim_task st i u).1
  | .unclaim i u => (unclaim_task st i u).1
  | .complete i r p => (complete_cmd st i r p).1

/-- Effect of a sequence of operations. -/
def applyOps (st : Store) (ops : List Op) : Store :=
  ops.foldl applyOp st

/-- Sample-record builder used by concrete witnesses. -/
def mkTask (id : Nat) (due : String) (done : Bool) (claimed : List Nat) (ws : String) : Task :=
  { id := id, title := "a", description := "", due_date := due, created_by := 0,
    created_at := "", completed := done, claimed_by := claimed, week_start := ws }

/-- An interleaving of two sequences of atomic steps: Interleaving xs ys zs
holds when zs is a merge of xs and ys that keeps the internal order of
each.  Under the asyncio execution model of the bot, a callback can only
be suspended at an await point; claim_task contains none, so one whole
claim_task call is one atomic step. -/
inductive Interleaving {α : Type} : List α → List α → List α → Prop
  | nil : Interleaving [] [] []
  | left {x : α} {xs ys zs : List α} :
      Interleaving xs ys zs → Interleaving (x :: xs) ys (x :: zs)
  | right {y : α} {xs ys zs : List α} :
      Interleaving xs ys zs → Interleaving xs (y :: ys) (y :: zs)

/-- The store transformation performed by one claim_task call. -/
def claimStep (task_id user_id : Nat) : Store → Store :=
  fun st => (claim_task st task_id user_id).1

/-- Run a schedule of atomic store transformations. -/
def runSchedule (st : Store) (steps : List (Store → Store)) : Store :=
  steps.foldl (fun s f => f s) st

/-- ASCII decimal digit test, the \d class restricted to ASCII. -/
def isDigitChar (c : Char) : Bool := 48 ≤ c.toNat && c.toNat ≤ 57

/-- Numeric value of an ASCII digit. -/
def digitVal (c : Char) : Nat := c.toNat - 48

/-- Decimal value of a digit string. -/
def valueOf (cs : List Char) : Nat := cs.foldl (fun a c => a * 10 + digitVal c) 0

def allDigits (cs : List Char) : Bool := cs.all isDigitChar

/-- Split a character list at every occurrence of sep (the fields between
the literal separators of a strptime format). -/
def splitSep (sep : Char) : List Char → List (List Char)
  | [] => [[]]
  | c :: cs =>
      if c = sep then [] :: splitSep sep cs
      else
        match splitSep sep cs with
        | [] => [[c]]
        | h :: t => (c :: h) :: t

/-- One numeric strptime field: all digits, length within
[minLen, maxLen], value within [lo, hi].  The directive %Y compiles to
exactly four digits; %m and %d compile to one or two digits with the
value ranges 1..12 and 1..31. -/
def fieldNat (cs : List Char) (minLen maxLen lo hi : Nat) : Option Nat :=
  if allDigits cs = true ∧ minLen ≤ cs.length ∧ cs.length ≤ maxLen
      ∧ lo ≤ valueOf cs ∧ valueOf cs ≤ hi then
    some (valueOf cs)
  else none

/-- Assemble a date from the three parsed numeric fields, already in
year-month-day order; any failed field fails the whole parse. -/
def mkFromFields (oy om od : Option Nat) : Option Date :=
  match oy, om, od with
  | some y, some m, some d => mkDate y m d
  | _, _, _ => none

/-- strptime with format %Y-%m-%d followed by the datetime constructor
validity check. -/
def strptime_Ymd (s : String) : Option Date :=
  match splitSep '-' s.data with
  | [ys, ms, ds] =>
      mkFromFields (fieldNat ys 4 4 0 9999) (fieldNat ms 1 2 1 12) (fieldNat ds 1 2 1 31)
  | _ => none

/-- strptime with format %d/%m/%Y followed by the datetime constructor
validity check. -/
def strptime_dmY_slash (s : String) : Option Date :=
  match splitSep '/' s.data with
  | [ds, ms, ys] =>
      mkFromFields (fieldNat ys 4 4 0 9999) (fieldNat ms 1 2 1 12) (fieldNat ds 1 2 1 31)
  | _ => none

/-- strptime with format %d-%m-%Y followed by the datetime constructor
validity check. -/
def strptime_dmY_dash (s : String) : Option Date :=
  match splitSep '-' s.data with
  | [ds, ms, ys] =>
      mkFromFields (fieldNat ys 4 4 0 9999) (fieldNat ms 1 2 1 12) (fieldNat ds 1 2 1 31)
  | _ => none

/-- parse_date: try the three formats in order, first success wins, raise
ValueError (modelled as Except.error with the message of the source) when
all three fail. -/
def parse_date (s : String) : Except String Date :=
  match strptime_Ymd s with
  | some d => .ok d
  | none =>
      match strptime_dmY_slash s with
      | some d => .ok d
      | none =>
          match strptime_dmY_dash s with
          | some d => .ok d
          | none => .error ("Date format should be YYYY-MM-DD or DD/MM/YYYY")

/-- The ASCII digit character of k (k below 10). -/
def digitChar10 (k : Nat) : Char := Char.ofNat (48 + k)

/-- Two-digit zero-padded decimal rendering. -/
def pad2 (n : Nat) : List Char := [digitChar10 (n / 10 % 10), digitChar10 (n % 10)]

/-- Four-digit zero-padded decimal rendering. -/
def pad4 (n : Nat) : List Char :=
  [digitChar10 (n / 1000 % 10), digitChar10 (n / 100 % 10),
   digitChar10 (n / 10 % 10), digitChar10 (n % 10)]

/-- A calendar date written in the YYYY-MM-DD layout. -/
def renderIso (y m d : Nat) : String := ⟨pad4 y ++ '-' :: (pad2 m ++ '-' :: pad2 d)⟩

/-- A calendar date written in the DD/MM/YYYY layout. -/
def renderSlash (y m d : Nat) : String := ⟨pad2 d ++ '/' :: (pad2 m ++ '/' :: pad4 y)⟩

/-- A calendar date written in the DD-MM-YYYY layout. -/
def renderDash (y m d : Nat) : String := ⟨pad2 d ++ '-' :: (pad2 m ++ '-' :: pad4 y)⟩

/-- A two-digit field of a time or strict-ISO date, bounded by hi. -/
def twoDigit (a b : Char) (hi : Nat) : Option Nat :=
  if isDigitChar a = true ∧ isDigitChar b = true ∧ digitVal a * 10 + digitVal b ≤ hi then
    some (digitVal a * 10 + digitVal b)
  else none

/-- A four-digit year field. -/
def fourDigit (a b c d : Char) : Option Nat :=
  if isDigitChar a = true ∧ isDigitChar b = true ∧ isDigitChar c = true
      ∧ isDigitChar d = true then
    some (((digitVal a * 10 + digitVal b) * 10 + digitVal c) * 10 + digitVal d)
  else none

/-- The HH, HH:MM or HH:MM:SS time part accepted by
datetime.fromisoformat, in seconds from midnight. -/
def parse_time_part (cs : List Char) : Option Nat :=
  match cs with
  | [h1, h2] => do
      let h ← twoDigit h1 h2 23
      some (h * 3600)
  | [h1, h2, ':', m1, m2] => do
      let h ← twoDigit h1 h2 23
      let m ← twoDigit m1 m2 59
      some (h * 3600 + m * 60)
  | [h1, h2, ':', m1, m2, ':', s1, s2] => do
      let h ← twoDigit h1 h2 23
      let m ← twoDigit m1 m2 59
      let s ← twoDigit s1 s2 59
      some (h * 3600 + m * 60 + s)
  | _ => none

/-- datetime.fromisoformat: a strict YYYY-MM-DD date, optionally followed
by a one-character separator and a time part.  The result is an instant
in seconds from the ordinal epoch. -/
def fromisoformat (s : String) : Option Nat :=
  match s.data with
  | y1 :: y2 :: y3 :: y4 :: '-' :: m1 :: m2 :: '-' :: d1 :: d2 :: rest => do
      let y ← fourDigit y1 y2 y3 y4
      let m ← twoDigit m1 m2 12
      let d ← twoDigit d1 d2 31
      let dt ← mkDate y m d
      match rest with
      | [] => some (toOrdinal dt * 86400)
      | _ :: timecs => do
          let secs ← parse_time_part timecs
          some (toOrdinal dt * 86400 + secs)
  | _ => none

/-- The due-date parsing of the reminder loop: datetime.fromisoformat
first, then strptime %Y-%m-%d at midnight; any failure means the row is
skipped. -/
def parse_due_datetime (s : String) : Option Nat :=
  match fromisoformat s with
  | some v => some v
  | none =>
      match strptime_Ymd s with
      | some dt => some (toOrdinal dt * 86400)
      | none => none

/-- A reminder message sent to the project channel. -/
inductive Notification where
  | mention (task_id : Nat) (claimers : List Nat) (due : String)
  | unclaimed (task_id : Nat) (due : String)
deriving DecidableEq

/-- The task a notification is about. -/
def Notification.target : Notification → Nat
  | .mention i _ _ => i
  | .unclaimed i _ => i

/-- The body of the reminder loop for one open-task row: parse the due
date (skip the row on failure), test the inclusive window, look the
channel up (skip when absent), then notify the claimers or warn that the
task is unclaimed. -/
def scanTask (channelExists : Bool) (now soon : Nat) (r : Task) : Option Notification :=
  match parse_due_datetime r.due_date with
  | none => none
  | some due =>
      if now ≤ due ∧ due ≤ soon then
        if channelExists then
          if r.claimed_by ≠ [] then some (.mention r.id r.claimed_by r.due_date)
          else some (.unclaimed r.id r.due_date)
        else none
      else none

/-- The for-loop of check_deadlines over the rows with completed = 0. -/
def check_deadlines_loop (channelExists : Bool) (now soon : Nat) : Store → List Notification
  | [] => []
  | r :: rest =>
      if r.completed then check_deadlines_loop channelExists now soon rest
      else
        match scanTask channelExists now soon r with
        | none => check_deadlines_loop channelExists now soon rest
        | some n => n :: check_deadlines_loop channelExists now soon rest

/-- check_deadlines: now and soon = now + REMINDER_HOURS, then the scan
over every task with completed = 0. -/
def check_deadlines (channelExists : Bool) (now reminderHours : Nat) (st : Store) :
    List Notification :=
  check_deadlines_loop channelExists now (now + reminderHours * 3600) st

/-- A row of the announcements table. -/
structure AnnouncementRow where
  message_id : Nat
  week_start : String
deriving DecidableEq

/-- The database schema state: the set of existing table names and the
rows of the announcements table created by init_db. -/
structure DB where
  tables : List String
  announcements : List AnnouncementRow
deriving DecidableEq

/-- The two tables created by init_db. -/
def init_db_tables : List String := ["tasks", "announcements"]

/-- get_announcement_for_message runs SELECT on a table named
annoucements (misspelled).  When no table of that name exists, sqlite
raises OperationalError, modelled as Except.error; init_db never creates
that table, so the success branch is unreachable under the init_db
schema and the announcements rows stand in for its rows there. -/
def get_announcement_for_message (db : DB) (message_id : Nat) :
    Except String (Option AnnouncementRow) :=
  if "annoucements" ∈ db.tables then
    .ok (db.announcements.find? (fun a => a.message_id == message_id))
  else
    .error ("no such table: annoucements")

/-- Observable side channel of a button callback. -/
inductive Effect where
  | refreshView (week : String)
  | ephemeralReply (text : String)
deriving DecidableEq

/-- The claim-button callback installed by announce_week: perform the
claim, look the announcement up by the message id, fall back to the week
captured at announce time when no row is found, then refresh the view
for that week and confirm.  An uncaught storage error ends the callback
after the already-committed claim, emitting no effect. -/
def make_claim_callback (db : DB) (st : Store) (announced_week : String)
    (message_id task_id user_id : Nat) : Store × Except String (List Effect) :=
  let st1 := (claim_task st task_id user_id).1
  match get_announcement_for_message db message_id with
  | .error e => (st1, .error e)
  | .ok ann =>
      let wk := match ann with
        | none => announced_week
        | some a => a.week_start
      (st1, .ok [Effect.refreshView wk, Effect.ephemeralReply ("claimed")])

/-- The ORDER BY due_date sort key (SQLite compares the TEXT column
lexicographically). -/
def dueLe (a b : Task) : Prop := a.due_date ≤ b.due_date

instance : DecidableRel dueLe :=
  fun a b => inferInstanceAs (Decidable (a.due_date ≤ b.due_date))

instance : IsTotal Task dueLe := ⟨fun a b => le_total a.due_date b.due_date⟩

instance : IsTrans Task dueLe := ⟨fun _ _ _ h1 h2 => le_trans h1 h2⟩

/-- SELECT * FROM tasks WHERE week_start = ? ORDER BY due_date. -/
def get_tasks_for_week (st : Store) (week_start_iso : String) : List Task :=
  List.insertionSort dueLe (st.filter (fun t => t.week_start == week_start_iso))

/-- SELECT * FROM tasks WHERE week_start = ? AND completed = 0
ORDER BY due_date. -/
def get_open_tasks_for_week (st : Store) (week_start_iso : String) : List Task :=
  List.insertionSort dueLe
    (st.filter (fun t => t.week_start == week_start_iso && t.completed == false))

theorem get_task_id (st : Store) (j : Nat) (t : Task) (h : get_task st j = some t) :
    t.id = j := by
  unfold get_task at h
  simpa using List.find?_some h

theorem get_task_updateTask (st : Store) (i j : Nat) (f : Task → Task)
    (hf : ∀ t, (f t).id = t.id) :
    get_task (updateTask st i f) j
      = (get_task st j).map (fun t => if t.id == i then f t else t) := by
  induction st with
  | nil => rfl
  | cons a tl ih =>
      unfold get_task updateTask at *
      simp only [List.map_cons, List.find?_cons]
      have hid : ((if a.id == i then f a else a).id == j) = (a.id == j) := by
        split
        · rw [hf a]
        · rfl
      rw [hid]
      cases haj : (a.id == j) with
      | true => simp
      | false => simpa using ih

theorem updateTask_updateTask (st : Store) (i : Nat) (f g : Task → Task)
    (hf : ∀ t, (f t).id = t.id) :
    updateTask (updateTask st i f) i g = updateTask st i (fun t => g (f t)) := by
  unfold updateTask
  rw [List.map_map]
  apply List.map_congr_left
  intro a _
  by_cases hai : (a.id == i) = true
  · simp [Function.comp, hai, hf a]
  · simp [Function.comp, hai]

theorem claim_task_eq (st : Store) (tid uid : Nat) (t : Task)
    (h : get_task st tid = some t) :
    claim_task st tid uid
      = (updateTask st tid (fun u => { u with claimed_by :=
            if uid ∈ t.claimed_by then t.claimed_by else t.claimed_by ++ [uid] }),
         some (if uid ∈ t.claimed_by then t.claimed_by else t.claimed_by ++ [uid])) := by
  unfold claim_task
  rw [h]

theorem get_task_claim_task (st : Store) (tid uid : Nat) (t : Task)
    (h : get_task st tid = some t) :
    get_task ((claim_task st tid uid).1) tid
      = some { t with claimed_by :=
          if uid ∈ t.claimed_by then t.claimed_by else t.claimed_by ++ [uid] } := by
  have hid := get_task_id st tid t h
  rw [claim_task_eq st tid uid t h]
  dsimp only
  rw [get_task_updateTask st tid tid]
  · rw [h]
    simp [hid]
  · intro u
    rfl

/-- C2: complete(taskId, requester, privileged) marks the task completed
exactly when the requester is a claimer or is privileged; in every other
case it reports PermissionDenied and leaves the store unchanged. -/
theorem C2_complete_iff (st : Store) (tid req : Nat) (priv : Bool) (t : Task)
    (h : get_task st tid = some t) :
    ((req ∈ t.claimed_by ∨ priv = true) →
       (complete_cmd st tid req priv).2 = CompleteResult.completed ∧
       get_task (complete_cmd st tid req priv).1 tid = some { t with completed := true })
    ∧ (¬(req ∈ t.claimed_by ∨ priv = true) →
       (complete_cmd st tid req priv).2 = CompleteResult.permissionDenied ∧
       (complete_cmd st tid req priv).1 = st) := by
  have hid := get_task_id st tid t h
  have hcc : complete_cmd st tid req priv
      = if req ∈ t.claimed_by ∨ priv = true then (complete_task st tid, .completed)
        else (st, .permissionDenied) := by
    unfold complete_cmd
    rw [h]
  constructor
  · intro hcond
    rw [hcc, if_pos hcond]
    refine ⟨rfl, ?_⟩
    dsimp only
    unfold complete_task
    rw [get_task_updateTask st tid tid]
    · rw [h]
      simp [hid]
    · intro u
      rfl
  · intro hcond
    rw [hcc, if_neg hcond]
    exact ⟨rfl, rfl⟩

/-- Witness for C2 at a concrete input: requester 7 is a claimer, so the
command completes the task. -/
theorem C2_complete_iff_witness :
    (complete_cmd [mkTask 1 ("2025-01-02") false [7] ("2024-12-30")] 1 7 false).2
        = CompleteResult.completed ∧
    get_task (complete_cmd [mkTask 1 ("2025-01-02") false [7] ("2024-12-30")] 1 7 false).1 1
      = some (mkTask 1 ("2025-01-02") true [7] ("2024-12-30")) :=
  (C2_complete_iff _ 1 7 false (mkTask 1 ("2025-01-02") false [7] ("2024-12-30"))
    (by decide)).1 (by decide)

/-- C7: on an open task, claiming appends the user to claimed_by when
absent and leaves the list unchanged when present, and claiming twice by
the same user produces exactly the store produced by claiming once. -/
theorem C7_claim_add_if_absent_idempotent (st : Store) (tid uid : Nat) (t : Task)
    (h : get_task st tid = some t) (_hopen : t.completed = false) :
    get_task ((claim_task st tid uid).1) tid
      = some { t with claimed_by :=
          if uid ∈ t.claimed_by then t.claimed_by else t.claimed_by ++ [uid] }
    ∧ (uid ∈ t.claimed_by →
        get_task ((claim_task st tid uid).1) tid = some t)
    ∧ (claim_task ((claim_task st tid uid).1) tid uid).1 = (claim_task st tid uid).1 := by
  have hid := get_task_id st tid t h
  have hbase := get_task_claim_task st tid uid t h
  refine ⟨hbase, ?_, ?_⟩
  · intro hmem
    rw [hbase]
    simp [if_pos hmem]
  · have hmem2 : uid ∈ (if uid ∈ t.claimed_by then t.claimed_by else t.claimed_by ++ [uid]) := by
      split
      · assumption
      · exact List.mem_append_right _ (List.mem_singleton.mpr rfl)
    have hst1 : (claim_task st tid uid).1
        = updateTask st tid (fun u => { u with claimed_by :=
            if uid ∈ t.claimed_by then t.claimed_by else t.claimed_by ++ [uid] }) := by
      rw [claim_task_eq st tid uid t h]
    rw [claim_task_eq ((claim_task st tid uid).1) tid uid _ hbase]
    dsimp only
    rw [if_pos hmem2]
    rw [hst1, updateTask_updateTask st tid]
    intro u
    rfl

/-- Witness for C7 at a concrete input: user 7 already claims the open
task, so a second claim leaves the store fixed. -/
theorem C7_claim_add_if_absent_idempotent_witness :
    (claim_task ((claim_task [mkTask 1 ("2025-01-02") false [7] ("2024-12-30")] 1 7).1) 1 7).1
      = (claim_task [mkTask 1 ("2025-01-02") false [7] ("2024-12-30")] 1 7).1 :=
  (C7_claim_add_if_absent_idempotent _ 1 7 (mkTask 1 ("2025-01-02") false [7] ("2024-12-30"))
    (by decide) (by decide)).2.2

/-- C3 counterexample: the code does not check the completed flag in
claim_task, so claiming the completed task 1 by user 42 changes its
claimed_by list — the store is not left unchanged. -/
theorem C3_claim_completed_counterexample :
    ¬ ((claim_task [mkTask 1 ("2025-01-02") true [] ("2024-12-30")] 1 42).1
        = [mkTask 1 ("2025-01-02") true [] ("2024-12-30")]) := by
  decide

/-- C3 amended: claim_task ignores the completed flag entirely.  On a
completed task it behaves exactly as on an open one — it appends the user
to claimed_by when absent (so the record does change), and leaves the
list as is when the user is already a claimer. -/
theorem C3_claim_completed_recorded (st : Store) (tid uid : Nat) (t : Task)
    (h : get_task st tid = some t) (_hdone : t.completed = true) :
    get_task ((claim_task st tid uid).1) tid
      = some { t with claimed_by :=
          if uid ∈ t.claimed_by then t.claimed_by else t.claimed_by ++ [uid] }
    ∧ (uid ∉ t.claimed_by → get_task ((claim_task st tid uid).1) tid ≠ some t) := by
  have hbase := get_task_claim_task st tid uid t h
  refine ⟨hbase, ?_⟩
  intro hnot heq
  rw [hbase] at heq
  injection heq with heq
  have hcb : t.claimed_by ++ [uid] = t.claimed_by := by
    have hf := congrArg Task.claimed_by heq
    rw [if_neg hnot] at hf
    exact hf
  have hlen := congrArg List.length hcb
  simp at hlen

/-- Witness for the amended C3 at a concrete input: the claim on the
completed task is recorded. -/
theorem C3_claim_completed_recorded_witness :
    get_task ((claim_task [mkTask 1 ("2025-01-02") true [] ("2024-12-30")] 1 42).1) 1
      = some (mkTask 1 ("2025-01-02") true [42] ("2024-12-30")) :=
  (C3_claim_completed_recorded _ 1 42 (mkTask 1 ("2025-01-02") true [] ("2024-12-30"))
    (by decide) (by decide)).1

theorem updateTask_keeps_completed (st : Store) (i j : Nat) (f : Task → Task)
    (hfid : ∀ u, (f u).id = u.id)
    (hfc : ∀ u, (f u).completed = true ∨ (f u).completed = u.completed)
    (t : Task) (h : get_task st j = some t) (hc : t.completed = true) :
    ∃ t', get_task (updateTask st i f) j = some t' ∧ t'.completed = true := by
  rw [get_task_updateTask st i j f hfid, h]
  refine ⟨_, rfl, ?_⟩
  dsimp only
  split
  · rcases hfc t with h1 | h1
    · exact h1
    · rw [h1]
      exact hc
  · exact hc

theorem completed_mono_applyOp (st : Store) (o : Op) (j : Nat) (t : Task)
    (h : get_task st j = some t) (hc : t.completed = true) :
    ∃ t', get_task (applyOp st o) j = some t' ∧ t'.completed = true := by
  cases o with
  | claim i u =>
      show ∃ t', get_task ((claim_task st i u).1) j = some t' ∧ t'.completed = true
      unfold claim_task
      cases hg : get_task st i with
      | none => exact ⟨t, h, hc⟩
      | some task =>
          dsimp only
          exact updateTask_keeps_completed st i j
            (fun v => { v with claimed_by :=
              if u ∈ task.claimed_by then task.claimed_by else task.claimed_by ++ [u] })
            (fun v => rfl) (fun v => Or.inr rfl) t h hc
  | unclaim i u =>
      show ∃ t', get_task ((unclaim_task st i u).1) j = some t' ∧ t'.completed = true
      unfold unclaim_task
      cases hg : get_task st i with
      | none => exact ⟨t, h, hc⟩
      | some task =>
          dsimp only
          exact updateTask_keeps_completed st i j
            (fun v => { v with claimed_by :=
              if u ∈ task.claimed_by then List.erase task.claimed_by u else task.claimed_by })
            (fun v => rfl) (fun v => Or.inr rfl) t h hc
  | complete i r p =>
      show ∃ t', get_task ((complete_cmd st i r p).1) j = some t' ∧ t'.completed = true
      unfold complete_cmd
      cases hg : get_task st i with
      | none => exact ⟨t, h, hc⟩
      | some task =>
          dsimp only
          split
          · dsimp only
            unfold complete_task
            exact updateTask_keeps_completed st i j
              (fun v => { v with completed := true })
              (fun v => rfl) (fun v => Or.inl rfl) t h hc
          · exact ⟨t, h, hc⟩

theorem completed_mono_applyOps (ops : List Op) :
    ∀ (st : Store) (j : Nat) (t : Task), get_task st j = some t → t.completed = true →
      ∀ t', get_task (applyOps st ops) j = some t' → t'.completed = true := by
  induction ops with
  | nil =>
      intro st j t h hc t' h'
      rw [show applyOps st [] = st from rfl, h] at h'
      injection h' with e
      rw [← e]
      exact hc
  | cons o rest ih =>
      intro st j t h hc t' h'
      obtain ⟨t'', h'', hc''⟩ := completed_mono_applyOp st o j t h hc
      exact ih (applyOp st o) j t'' h'' hc'' t' h'

/-- C4: completion is terminal.  Once a task has completed = true, no
sequence of claim, unclaim or complete operations (on any task, by any
user) ever makes its completed flag false again. -/
theorem C4_completed_terminal (st : Store) (j : Nat) (t : Task)
    (h : get_task st j = some t) (hc : t.completed = true) (ops : List Op) (t' : Task)
    (h' : get_task (applyOps st ops) j = some t') : t'.completed = true :=
  completed_mono_applyOps ops st j t h hc t' h'

/-- Witness for C4 at a concrete input: after a claim, an unclaim and a
denied complete on the completed task, its flag is still true. -/
theorem C4_completed_terminal_witness :
    (mkTask 1 ("2025-01-02") true [] ("2024-12-30")).completed = true :=
  C4_completed_terminal [mkTask 1 ("2025-01-02") true [] ("2024-12-30")] 1
    (mkTask 1 ("2025-01-02") true [] ("2024-12-30")) (by decide) (by decide)
    [Op.claim 1 3, Op.unclaim 1 3, Op.complete 1 9 false]
    (mkTask 1 ("2025-01-02") true [] ("2024-12-30")) (by decide)

/-- C1: two concurrent claims by different users A and B on the same open
task both persist.  For every interleaving of the two (atomic) claim_task
calls, the final claimed_by list of the task contains both A and B; no
schedule produces a last-writer-wins state that loses one claim. -/
theorem C1_concurrent_claims_both_persist (st : Store) (tid A B : Nat) (t : Task)
    (h : get_task st tid = some t) (_hopen : t.completed = false) (_hAB : A ≠ B)
    (sched : List (Store → Store))
    (hs : Interleaving [claimStep tid A] [claimStep tid B] sched) :
    ∃ t', get_task (runSchedule st sched) tid = some t'
      ∧ A ∈ t'.claimed_by ∧ B ∈ t'.claimed_by := by
  have step : ∀ (s : Store) (u v : Nat) (tu : Task), get_task s tid = some tu →
      ∃ tv, get_task (claimStep tid v s) tid = some tv
        ∧ tv.claimed_by = (if v ∈ tu.claimed_by then tu.claimed_by else tu.claimed_by ++ [v])
        ∧ (u ∈ tu.claimed_by → u ∈ tv.claimed_by) ∧ v ∈ tv.claimed_by := by
    intro s u v tu hu
    refine ⟨_, get_task_claim_task s tid v tu hu, rfl, ?_, ?_⟩
    · intro hmem
      split
      · exact hmem
      · exact List.mem_append_left _ hmem
    · split
      · assumption
      · exact List.mem_append_right _ (List.mem_singleton.mpr rfl)
  cases hs with
  | left h1 =>
      cases h1 with
      | right h2 =>
          cases h2
          obtain ⟨tA, hA, _, _, hAmem⟩ := step st B A t h
          obtain ⟨tB, hB, _, hkeep, hBmem⟩ := step _ A B tA hA
          exact ⟨tB, hB, hkeep hAmem, hBmem⟩
  | right h1 =>
      cases h1 with
      | left h2 =>
          cases h2
          obtain ⟨tB, hB, _, _, hBmem⟩ := step st A B t h
          obtain ⟨tA, hA, _, hkeep, hAmem⟩ := step _ B A tB hB
          exact ⟨tA, hA, hAmem, hkeep hBmem⟩

/-- Witness for C1 at a concrete input: the schedule that runs the claim
of user 10 and then the claim of user 20 keeps both claims. -/
theorem C1_concurrent_claims_both_persist_witness :
    ∃ t', get_task (runSchedule [mkTask 1 ("2025-01-02") false [] ("2024-12-30")]
        [claimStep 1 10, claimStep 1 20]) 1 = some t'
      ∧ 10 ∈ t'.claimed_by ∧ 20 ∈ t'.claimed_by :=
  C1_concurrent_claims_both_persist _ 1 10 20
    (mkTask 1 ("2025-01-02") false [] ("2024-12-30")) (by decide) (by decide) (by decide)
    [claimStep 1 10, claimStep 1 20]
    (Interleaving.left (Interleaving.right Interleaving.nil))

/-- C9: weekStart is a pure, total, deterministic function on dates that
returns the Monday on or before its input: for every date (ordinal) n the
result is a Monday (weekday 0), lies at most 6 days before n and never
after it, and applying weekStart twice equals applying it once. -/
theorem C9_week_start_monday_idempotent (n : Int) :
    weekday (week_start n) = 0
    ∧ week_start (week_start n) = week_start n
    ∧ week_start n ≤ n
    ∧ n < week_start n + 7 := by
  unfold week_start weekday
  omega

theorem splitSep_of_not_mem (sep : Char) (cs : List Char) (h : sep ∉ cs) :
    splitSep sep cs = [cs] := by
  induction cs with
  | nil => rfl
  | cons c cs ih =>
      have hc : ¬ c = sep := by
        intro e
        exact h (by rw [e]; exact List.mem_cons_self _ _)
      have hrest : sep ∉ cs := fun hm => h (List.mem_cons_of_mem _ hm)
      unfold splitSep
      rw [if_neg hc, ih hrest]

theorem splitSep_append (sep : Char) (a r : List Char) (ha : sep ∉ a) :
    splitSep sep (a ++ sep :: r) = a :: splitSep sep r := by
  induction a with
  | nil =>
      show splitSep sep (sep :: r) = [] :: splitSep sep r
      conv_lhs => unfold splitSep
      rw [if_pos rfl]
  | cons c a ih =>
      have hc : ¬ c = sep := by
        intro e
        exact ha (by rw [e]; exact List.mem_cons_self _ _)
      have ha' : sep ∉ a := fun hm => ha (List.mem_cons_of_mem _ hm)
      show splitSep sep (c :: (a ++ sep :: r)) = (c :: a) :: splitSep sep r
      conv_lhs => unfold splitSep
      rw [if_neg hc, ih ha']

theorem digitChar10_spec : ∀ k, k < 10 →
    isDigitChar (digitChar10 k) = true ∧ digitVal (digitChar10 k) = k
    ∧ digitChar10 k ≠ '-' ∧ digitChar10 k ≠ '/' := by
  decide

theorem pad2_spec (n : Nat) :
    allDigits (pad2 n) = true ∧ (pad2 n).length = 2
    ∧ valueOf (pad2 n) = n / 10 % 10 * 10 + n % 10
    ∧ '-' ∉ pad2 n ∧ '/' ∉ pad2 n := by
  obtain ⟨h1, h2, h3, h4⟩ := digitChar10_spec (n / 10 % 10) (Nat.mod_lt _ (by omega))
  obtain ⟨g1, g2, g3, g4⟩ := digitChar10_spec (n % 10) (Nat.mod_lt _ (by omega))
  refine ⟨?_, rfl, ?_, ?_, ?_⟩
  · simp [allDigits, pad2, h1, g1]
  · unfold valueOf pad2
    simp [List.foldl, h2, g2]
  · intro hm
    rcases List.mem_cons.mp hm with e | hm2
    · exact h3 e.symm
    · rcases List.mem_cons.mp hm2 with e | hm3
      · exact g3 e.symm
      · exact List.not_mem_nil _ hm3
  · intro hm
    rcases List.mem_cons.mp hm with e | hm2
    · exact h4 e.symm
    · rcases List.mem_cons.mp hm2 with e | hm3
      · exact g4 e.symm
      · exact List.not_mem_nil _ hm3

theorem pad4_spec (n : Nat) :
    allDigits (pad4 n) = true ∧ (pad4 n).length = 4
    ∧ valueOf (pad4 n)
        = ((n / 1000 % 10 * 10 + n / 100 % 10) * 10 + n / 10 % 10) * 10 + n % 10
    ∧ '-' ∉ pad4 n ∧ '/' ∉ pad4 n := by
  obtain ⟨a1, a2, a3, a4⟩ := digitChar10_spec (n / 1000 % 10) (Nat.mod_lt _ (by omega))
  obtain ⟨b1, b2, b3, b4⟩ := digitChar10_spec (n / 100 % 10) (Nat.mod_lt _ (by omega))
  obtain ⟨c1, c2, c3, c4⟩ := digitChar10_spec (n / 10 % 10) (Nat.mod_lt _ (by omega))
  obtain ⟨d1, d2, d3, d4⟩ := digitChar10_spec (n % 10) (Nat.mod_lt _ (by omega))
  refine ⟨?_, rfl, ?_, ?_, ?_⟩
  · simp [allDigits, pad4, a1, b1, c1, d1]
  · unfold valueOf pad4
    simp [List.foldl, a2, b2, c2, d2]
  · intro hm
    simp only [pad4, List.mem_cons, List.not_mem_nil, or_false] at hm
    rcases hm with e | e | e | e
    · exact a3 e.symm
    · exact b3 e.symm
    · exact c3 e.symm
    · exact d3 e.symm
  · intro hm
    simp only [pad4, List.mem_cons, List.not_mem_nil, or_false] at hm
    rcases hm with e | e | e | e
    · exact a4 e.symm
    · exact b4 e.symm
    · exact c4 e.symm
    · exact d4 e.symm

theorem valueOf_pad2 (n : Nat) (h : n ≤ 99) : valueOf (pad2 n) = n := by
  rw [(pad2_spec n).2.2.1]
  omega

theorem valueOf_pad4 (n : Nat) (h : n ≤ 9999) : valueOf (pad4 n) = n := by
  rw [(pad4_spec n).2.2.1]
  omega

theorem fieldNat_pad2 (n lo hi : Nat) (h99 : n ≤ 99) (hlo : lo ≤ n) (hhi : n ≤ hi) :
    fieldNat (pad2 n) 1 2 lo hi = some n := by
  have hv := valueOf_pad2 n h99
  unfold fieldNat
  rw [if_pos]
  · rw [hv]
  · refine ⟨(pad2_spec n).1, ?_, ?_, ?_, ?_⟩
    · rw [(pad2_spec n).2.1]
      omega
    · rw [(pad2_spec n).2.1]
    · rw [hv]
      exact hlo
    · rw [hv]
      exact hhi

theorem fieldNat_pad4 (n : Nat) (h : n ≤ 9999) :
    fieldNat (pad4 n) 4 4 0 9999 = some n := by
  have hv := valueOf_pad4 n h
  unfold fieldNat
  rw [if_pos]
  · rw [hv]
  · refine ⟨(pad4_spec n).1, ?_, ?_, ?_, ?_⟩
    · rw [(pad4_spec n).2.1]
    · rw [(pad4_spec n).2.1]
    · rw [hv]
      omega
    · rw [hv]
      exact h

theorem fieldNat_pad2_minLen4 (n lo hi : Nat) : fieldNat (pad2 n) 4 4 lo hi = none := by
  unfold fieldNat
  rw [if_neg]
  intro hcond
  have h4 := hcond.2.1
  rw [(pad2_spec n).2.1] at h4
  omega

theorem daysInMonth_le_31 (y m : Nat) : daysInMonth y m ≤ 31 := by
  unfold daysInMonth
  split
  · split <;> omega
  · split <;> omega

theorem isValidDate_bounds (y m d : Nat) (h : isValidDate y m d = true) :
    1 ≤ y ∧ y ≤ 9999 ∧ 1 ≤ m ∧ m ≤ 12 ∧ 1 ≤ d ∧ d ≤ 31 := by
  have hb : 1 ≤ y ∧ y ≤ 9999 ∧ 1 ≤ m ∧ m ≤ 12 ∧ 1 ≤ d ∧ d ≤ daysInMonth y m := by
    simpa [isValidDate, Bool.and_eq_true, decide_eq_true_eq, and_assoc] using h
  exact ⟨hb.1, hb.2.1, hb.2.2.1, hb.2.2.2.1, hb.2.2.2.2.1,
    le_trans hb.2.2.2.2.2 (daysInMonth_le_31 y m)⟩

theorem mkFromFields_none_year (om od : Option Nat) : mkFromFields none om od = none := by
  cases om <;> cases od <;> rfl

theorem strptime_Ymd_renderIso (y m d : Nat) (h : isValidDate y m d = true) :
    strptime_Ymd (renderIso y m d) = some ⟨y, m, d⟩ := by
  obtain ⟨hy1, hy2, hm1, hm2, hd1, hd31⟩ := isValidDate_bounds y m d h
  unfold strptime_Ymd
  rw [show (renderIso y m d).data = pad4 y ++ '-' :: (pad2 m ++ '-' :: pad2 d) from rfl]
  rw [splitSep_append _ _ _ (pad4_spec y).2.2.2.1,
      splitSep_append _ _ _ (pad2_spec m).2.2.2.1,
      splitSep_of_not_mem _ _ (pad2_spec d).2.2.2.1]
  show mkFromFields (fieldNat (pad4 y) 4 4 0 9999) (fieldNat (pad2 m) 1 2 1 12)
      (fieldNat (pad2 d) 1 2 1 31) = some ⟨y, m, d⟩
  rw [fieldNat_pad4 y hy2, fieldNat_pad2 m 1 12 (by omega) hm1 hm2,
      fieldNat_pad2 d 1 31 (by omega) hd1 hd31]
  show mkDate y m d = some ⟨y, m, d⟩
  unfold mkDate
  rw [if_pos h]

theorem strptime_Ymd_renderSlash (y m d : Nat) :
    strptime_Ymd (renderSlash y m d) = none := by
  unfold strptime_Ymd
  rw [show (renderSlash y m d).data = pad2 d ++ '/' :: (pad2 m ++ '/' :: pad4 y) from rfl]
  rw [splitSep_of_not_mem]
  intro hm
  simp only [List.mem_append, List.mem_cons] at hm
  rcases hm with h1 | h1 | h1 | h1 | h1
  · exact (pad2_spec d).2.2.2.1 h1
  · exact absurd h1 (by decide)
  · exact (pad2_spec m).2.2.2.1 h1
  · exact absurd h1 (by decide)
  · exact (pad4_spec y).2.2.2.1 h1

theorem strptime_Ymd_renderDash (y m d : Nat) :
    strptime_Ymd (renderDash y m d) = none := by
  unfold strptime_Ymd
  rw [show (renderDash y m d).data = pad2 d ++ '-' :: (pad2 m ++ '-' :: pad4 y) from rfl]
  rw [splitSep_append _ _ _ (pad2_spec d).2.2.2.1,
      splitSep_append _ _ _ (pad2_spec m).2.2.2.1,
      splitSep_of_not_mem _ _ (pad4_spec y).2.2.2.1]
  show mkFromFields (fieldNat (pad2 d) 4 4 0 9999) (fieldNat (pad2 m) 1 2 1 12)
      (fieldNat (pad4 y) 1 2 1 31) = none
  rw [fieldNat_pad2_minLen4 d 0 9999, mkFromFields_none_year]

theorem strptime_dmY_slash_renderIso (y m d : Nat) :
    strptime_dmY_slash (renderIso y m d) = none := by
  unfold strptime_dmY_slash
  rw [show (renderIso y m d).data = pad4 y ++ '-' :: (pad2 m ++ '-' :: pad2 d) from rfl]
  rw [splitSep_of_not_mem]
  intro hm
  simp only [List.mem_append, List.mem_cons] at hm
  rcases hm with h1 | h1 | h1 | h1 | h1
  · exact (pad4_spec y).2.2.2.2 h1
  · exact absurd h1 (by decide)
  · exact (pad2_spec m).2.2.2.2 h1
  · exact absurd h1 (by decide)
  · exact (pad2_spec d).2.2.2.2 h1

theorem strptime_dmY_slash_renderDash (y m d : Nat) :
    strptime_dmY_slash (renderDash y m d) = none := by
  unfold strptime_dmY_slash
  rw [show (renderDash y m d).data = pad2 d ++ '-' :: (pad2 m ++ '-' :: pad4 y) from rfl]
  rw [splitSep_of_not_mem]
  intro hm
  simp only [List.mem_append, List.mem_cons] at hm
  rcases hm with h1 | h1 | h1 | h1 | h1
  · exact (pad2_spec d).2.2.2.2 h1
  · exact absurd h1 (by decide)
  · exact (pad2_spec m).2.2.2.2 h1
  · exact absurd h1 (by decide)
  · exact (pad4_spec y).2.2.2.2 h1

theorem strptime_dmY_slash_renderSlash (y m d : Nat) (h : isValidDate y m d = true) :
    strptime_dmY_slash (renderSlash y m d) = some ⟨y, m, d⟩ := by
  obtain ⟨hy1, hy2, hm1, hm2, hd1, hd31⟩ := isValidDate_bounds y m d h
  unfold strptime_dmY_slash
  rw [show (renderSlash y m d).data = pad2 d ++ '/' :: (pad2 m ++ '/' :: pad4 y) from rfl]
  rw [splitSep_append _ _ _ (pad2_spec d).2.2.2.2,
      splitSep_append _ _ _ (pad2_spec m).2.2.2.2,
      splitSep_of_not_mem _ _ (pad4_spec y).2.2.2.2]
  show mkFromFields (fieldNat (pad4 y) 4 4 0 9999) (fieldNat (pad2 m) 1 2 1 12)
      (fieldNat (pad2 d) 1 2 1 31) = some ⟨y, m, d⟩
  rw [fieldNat_pad4 y hy2, fieldNat_pad2 m 1 12 (by omega) hm1 hm2,
      fieldNat_pad2 d 1 31 (by omega) hd1 hd31]
  show mkDate y m d = some ⟨y, m, d⟩
  unfold mkDate
  rw [if_pos h]

theorem strptime_dmY_dash_renderDash (y m d : Nat) (h : isValidDate y m d = true) :
    strptime_dmY_dash (renderDash y m d) = some ⟨y, m, d⟩ := by
  obtain ⟨hy1, hy2, hm1, hm2, hd1, hd31⟩ := isValidDate_bounds y m d h
  unfold strptime_dmY_dash
  rw [show (renderDash y m d).data = pad2 d ++ '-' :: (pad2 m ++ '-' :: pad4 y) from rfl]
  rw [splitSep_append _ _ _ (pad2_spec d).2.2.2.1,
      splitSep_append _ _ _ (pad2_spec m).2.2.2.1,
      splitSep_of_not_mem _ _ (pad4_spec y).2.2.2.1]
  show mkFromFields (fieldNat (pad4 y) 4 4 0 9999) (fieldNat (pad2 m) 1 2 1 12)
      (fieldNat (pad2 d) 1 2 1 31) = some ⟨y, m, d⟩
  rw [fieldNat_pad4 y hy2, fieldNat_pad2 m 1 12 (by omega) hm1 hm2,
      fieldNat_pad2 d 1 31 (by omega) hd1 hd31]
  show mkDate y m d = some ⟨y, m, d⟩
  unfold mkDate
  rw [if_pos h]

/-- C8: parse_date tries exactly the layouts YYYY-MM-DD, DD/MM/YYYY and
DD-MM-YYYY in that order with the first success winning, fails with the
recoverable format error on any text matching none of them, and returns
the same calendar date for a valid date written in any of the three
layouts. -/
theorem C8_parse_date_three_layouts (s : String) (y m d : Nat) :
    (parse_date s = Except.error ("Date format should be YYYY-MM-DD or DD/MM/YYYY")
      ↔ (strptime_Ymd s = none ∧ strptime_dmY_slash s = none ∧ strptime_dmY_dash s = none))
    ∧ (∀ dt, strptime_Ymd s = some dt → parse_date s = Except.ok dt)
    ∧ (∀ dt, strptime_Ymd s = none → strptime_dmY_slash s = some dt →
        parse_date s = Except.ok dt)
    ∧ (∀ dt, strptime_Ymd s = none → strptime_dmY_slash s = none →
        strptime_dmY_dash s = some dt → parse_date s = Except.ok dt)
    ∧ (isValidDate y m d = true →
        parse_date (renderIso y m d) = Except.ok ⟨y, m, d⟩
        ∧ parse_date (renderSlash y m d) = Except.ok ⟨y, m, d⟩
        ∧ parse_date (renderDash y m d) = Except.ok ⟨y, m, d⟩) := by
  refine ⟨?_, ?_, ?_, ?_, ?_⟩
  · constructor
    · intro he
      unfold parse_date at he
      cases h1 : strptime_Ymd s with
      | some dt => rw [h1] at he; exact absurd he (by simp)
      | none =>
          rw [h1] at he
          cases h2 : strptime_dmY_slash s with
          | some dt => rw [h2] at he; exact absurd he (by simp)
          | none =>
              rw [h2] at he
              cases h3 : strptime_dmY_dash s with
              | some dt => rw [h3] at he; exact absurd he (by simp)
              | none => exact ⟨rfl, rfl, rfl⟩
    · intro ⟨h1, h2, h3⟩
      unfold parse_date
      rw [h1, h2, h3]
  · intro dt h1
    unfold parse_date
    rw [h1]
  · intro dt h1 h2
    unfold parse_date
    rw [h1, h2]
  · intro dt h1 h2 h3
    unfold parse_date
    rw [h1, h2, h3]
  · intro h
    refine ⟨?_, ?_, ?_⟩
    · unfold parse_date
      rw [strptime_Ymd_renderIso y m d h]
    · unfold parse_date
      rw [strptime_Ymd_renderSlash y m d, strptime_dmY_slash_renderSlash y m d h]
    · unfold parse_date
      rw [strptime_Ymd_renderDash y m d, strptime_dmY_slash_renderDash y m d,
          strptime_dmY_dash_renderDash y m d h]

/-- Witness for C8 at a concrete input: 4 March 2025 in each of the three
layouts parses to the same calendar date. -/
theorem C8_parse_date_three_layouts_witness :
    parse_date ("2025-03-04") = Except.ok ⟨2025, 3, 4⟩
    ∧ parse_date ("04/03/2025") = Except.ok ⟨2025, 3, 4⟩
    ∧ parse_date ("04-03-2025") = Except.ok ⟨2025, 3, 4⟩ := by
  have h := (C8_parse_date_three_layouts ("x") 2025 3 4).2.2.2.2 (by decide)
  have e1 : renderIso 2025 3 4 = ("2025-03-04") := by decide
  have e2 : renderSlash 2025 3 4 = ("04/03/2025") := by decide
  have e3 : renderDash 2025 3 4 = ("04-03-2025") := by decide
  rw [e1, e2, e3] at h
  exact h

theorem scanTask_mention (now soon : Nat) (r : Task) (due : Nat)
    (hp : parse_due_datetime r.due_date = some due)
    (hw : now ≤ due ∧ due ≤ soon) (hc : r.claimed_by ≠ []) :
    scanTask true now soon r = some (.mention r.id r.claimed_by r.due_date) := by
  unfold scanTask
  rw [hp]
  show (if now ≤ due ∧ due ≤ soon then
      if true = true then
        if r.claimed_by ≠ [] then some (Notification.mention r.id r.claimed_by r.due_date)
        else some (Notification.unclaimed r.id r.due_date)
      else none
    else none) = some (Notification.mention r.id r.claimed_by r.due_date)
  rw [if_pos hw, if_pos rfl, if_pos hc]

theorem scanTask_unclaimed (now soon : Nat) (r : Task) (due : Nat)
    (hp : parse_due_datetime r.due_date = some due)
    (hw : now ≤ due ∧ due ≤ soon) (hc : r.claimed_by = []) :
    scanTask true now soon r = some (.unclaimed r.id r.due_date) := by
  unfold scanTask
  rw [hp]
  show (if now ≤ due ∧ due ≤ soon then
      if true = true then
        if r.claimed_by ≠ [] then some (Notification.mention r.id r.claimed_by r.due_date)
        else some (Notification.unclaimed r.id r.due_date)
      else none
    else none) = some (Notification.unclaimed r.id r.due_date)
  rw [if_pos hw, if_pos rfl, if_neg (by simp [hc])]

theorem scanTask_out_of_window (ch : Bool) (now soon : Nat) (r : Task) (due : Nat)
    (hp : parse_due_datetime r.due_date = some due)
    (hw : ¬ (now ≤ due ∧ due ≤ soon)) :
    scanTask ch now soon r = none := by
  unfold scanTask
  rw [hp]
  show (if now ≤ due ∧ due ≤ soon then
      if ch = true then
        if r.claimed_by ≠ [] then some (Notification.mention r.id r.claimed_by r.due_date)
        else some (Notification.unclaimed r.id r.due_date)
      else none
    else none) = none
  rw [if_neg hw]

theorem scanTask_no_channel (now soon : Nat) (r : Task) (due : Nat)
    (hp : parse_due_datetime r.due_date = some due)
    (hw : now ≤ due ∧ due ≤ soon) :
    scanTask false now soon r = none := by
  unfold scanTask
  rw [hp]
  show (if now ≤ due ∧ due ≤ soon then
      if false = true then
        if r.claimed_by ≠ [] then some (Notification.mention r.id r.claimed_by r.due_date)
        else some (Notification.unclaimed r.id r.due_date)
      else none
    else none) = none
  rw [if_pos hw, if_neg (by simp)]

theorem scanTask_no_parse (ch : Bool) (now soon : Nat) (r : Task)
    (hp : parse_due_datetime r.due_date = none) :
    scanTask ch now soon r = none := by
  unfold scanTask
  rw [hp]

theorem scanTask_target (ch : Bool) (now soon : Nat) (r : Task) (n : Notification)
    (h : scanTask ch now soon r = some n) : n.target = r.id := by
  cases hp : parse_due_datetime r.due_date with
  | none =>
      rw [scanTask_no_parse ch now soon r hp] at h
      cases h
  | some due =>
      by_cases hw : now ≤ due ∧ due ≤ soon
      · cases ch with
        | false =>
            rw [scanTask_no_channel now soon r due hp hw] at h
            cases h
        | true =>
            by_cases hc : r.claimed_by = []
            · rw [scanTask_unclaimed now soon r due hp hw hc] at h
              injection h with e
              rw [← e]
              rfl
            · rw [scanTask_mention now soon r due hp hw hc] at h
              injection h with e
              rw [← e]
              rfl
      · rw [scanTask_out_of_window ch now soon r due hp hw] at h
        cases h

theorem check_loop_countP_zero (ch : Bool) (now soon : Nat) (st : Store) (x : Nat)
    (h : ∀ s ∈ st, s.id ≠ x) :
    (check_deadlines_loop ch now soon st).countP (fun n => n.target == x) = 0 := by
  induction st with
  | nil => rfl
  | cons s rest ih =>
      have hrest : ∀ u ∈ rest, u.id ≠ x := fun u hu => h u (List.mem_cons_of_mem _ hu)
      unfold check_deadlines_loop
      split
      · exact ih hrest
      · cases hscan : scanTask ch now soon s with
        | none => exact ih hrest
        | some n =>
            have hts : n.target = s.id := scanTask_target ch now soon s n hscan
            have hpn : (n.target == x) = false := by
              rw [hts]
              simp [h s (List.mem_cons_self _ _)]
            rw [List.countP_cons, hpn]
            simpa using ih hrest

theorem check_loop_countP (ch : Bool) (now soon : Nat) (st : Store) (r : Task)
    (hnd : (st.map Task.id).Nodup) (hr : r ∈ st) (hopen : r.completed = false) :
    (check_deadlines_loop ch now soon st).countP (fun n => n.target == r.id)
      = (scanTask ch now soon r).elim 0 (fun _ => 1) := by
  induction st with
  | nil => cases hr
  | cons s rest ih =>
      rw [List.map_cons, List.nodup_cons] at hnd
      obtain ⟨hs_notin, hnd_rest⟩ := hnd
      rcases List.mem_cons.mp hr with rfl | hr_rest
      · have hothers : ∀ u ∈ rest, u.id ≠ r.id := by
          intro u hu e
          exact hs_notin (e ▸ List.mem_map_of_mem Task.id hu)
        unfold check_deadlines_loop
        rw [if_neg (by simp [hopen])]
        cases hscan : scanTask ch now soon r with
        | none =>
            exact check_loop_countP_zero ch now soon rest r.id hothers
        | some n =>
            have hts : n.target = r.id := scanTask_target ch now soon r n hscan
            rw [List.countP_cons, check_loop_countP_zero ch now soon rest r.id hothers]
            simp [hts]
      · have hsid : s.id ≠ r.id := by
          intro e
          exact hs_notin (by rw [e]; exact List.mem_map_of_mem Task.id hr_rest)
        unfold check_deadlines_loop
        split
        · exact ih hnd_rest hr_rest
        · cases hscan : scanTask ch now soon s with
          | none => exact ih hnd_rest hr_rest
          | some n =>
              have hts : n.target = s.id := scanTask_target ch now soon s n hscan
              have hpn : (n.target == r.id) = false := by
                rw [hts]
                simp [hsid]
              rw [List.countP_cons, hpn]
              simpa using ih hnd_rest hr_rest

theorem check_loop_mem (ch : Bool) (now soon : Nat) (st : Store) (r : Task) (n : Notification)
    (hr : r ∈ st) (hopen : r.completed = false)
    (hscan : scanTask ch now soon r = some n) :
    n ∈ check_deadlines_loop ch now soon st := by
  induction st with
  | nil => cases hr
  | cons s rest ih =>
      rcases List.mem_cons.mp hr with rfl | hr_rest
      · unfold check_deadlines_loop
        rw [if_neg (by simp [hopen]), hscan]
        exact List.mem_cons_self _ _
      · unfold check_deadlines_loop
        split
        · exact ih hr_rest
        · cases hscan2 : scanTask ch now soon s with
          | none => exact ih hr_rest
          | some n2 => exact List.mem_cons_of_mem _ (ih hr_rest)

/-- C5: in one reminder scan with the channel available, every task with
completed = false whose due date parses and lies in the inclusive window
[now, now + REMINDER_HOURS] gets exactly one notification — mentioning
all claimers when claimed_by is non-empty, an unclaimed warning otherwise
— while a task outside the window, or with an unparseable due date, gets
none; an unparseable row is skipped without affecting the rest of the
scan, which this theorem states over stores that may contain such rows. -/
theorem C5_reminder_scan (now reminderHours : Nat) (st : Store) (r : Task)
    (hnd : (st.map Task.id).Nodup) (hr : r ∈ st) (hopen : r.completed = false) :
    (∀ due, parse_due_datetime r.due_date = some due →
      ((now ≤ due ∧ due ≤ now + reminderHours * 3600) →
        (check_deadlines true now reminderHours st).countP (fun n => n.target == r.id) = 1
        ∧ (r.claimed_by ≠ [] →
            Notification.mention r.id r.claimed_by r.due_date
              ∈ check_deadlines true now reminderHours st)
        ∧ (r.claimed_by = [] →
            Notification.unclaimed r.id r.due_date
              ∈ check_deadlines true now reminderHours st))
      ∧ (¬ (now ≤ due ∧ due ≤ now + reminderHours * 3600) →
        (check_deadlines true now reminderHours st).countP (fun n => n.target == r.id) = 0))
    ∧ (parse_due_datetime r.due_date = none →
      (check_deadlines true now reminderHours st).countP (fun n => n.target == r.id) = 0) := by
  constructor
  · intro due hp
    constructor
    · intro hw
      refine ⟨?_, ?_, ?_⟩
      · rw [show check_deadlines true now reminderHours st
            = check_deadlines_loop true now (now + reminderHours * 3600) st from rfl]
        rw [check_loop_countP true now (now + reminderHours * 3600) st r hnd hr hopen]
        cases hcl : r.claimed_by with
        | nil => rw [scanTask_unclaimed now _ r due hp hw hcl]; rfl
        | cons c cs =>
            rw [scanTask_mention now _ r due hp hw (by simp [hcl])]
            rfl
      · intro hc
        exact check_loop_mem true now _ st r _ hr hopen
          (scanTask_mention now _ r due hp hw hc)
      · intro hc
        exact check_loop_mem true now _ st r _ hr hopen
          (scanTask_unclaimed now _ r due hp hw hc)
    · intro hw
      rw [show check_deadlines true now reminderHours st
          = check_deadlines_loop true now (now + reminderHours * 3600) st from rfl]
      rw [check_loop_countP true now (now + reminderHours * 3600) st r hnd hr hopen]
      rw [scanTask_out_of_window true now _ r due hp hw]
      rfl
  · intro hp
    rw [show check_deadlines true now reminderHours st
        = check_deadlines_loop true now (now + reminderHours * 3600) st from rfl]
    rw [check_loop_countP true now (now + reminderHours * 3600) st r hnd hr hopen]
    rw [scanTask_no_parse true now _ r hp]
    rfl

/-- Witness for C5 at a concrete input: with now = 2025-01-01T00:00 and a
48-hour window, the open task due 2025-01-02T12:00 claimed by user 5 gets
its mention notification even though the store also holds a task with an
unparseable due date. -/
theorem C5_reminder_scan_witness :
    Notification.mention 1 [5] ("2025-01-02T12:00:00")
      ∈ check_deadlines true (739252 * 86400) 48
        [mkTask 1 ("2025-01-02T12:00:00") false [5] ("w"), mkTask 2 ("bad") false [] ("w")] :=
  ((((C5_reminder_scan (739252 * 86400) 48
      [mkTask 1 ("2025-01-02T12:00:00") false [5] ("w"), mkTask 2 ("bad") false [] ("w")]
      (mkTask 1 ("2025-01-02T12:00:00") false [5] ("w"))
      (by decide) (by decide) (by decide)).1
      (739253 * 86400 + 43200) (by decide)).1 (by decide)).2.1 (by decide))

/-- The schema created by init_db together with the announcement row
recorded by announce_week for message 99. -/
def dbC6 : DB :=
  { tables := init_db_tables,
    announcements := [{ message_id := 99, week_start := "2025-01-06" }] }

/-- One open task of the announced week. -/
def stC6 : Store := [mkTask 1 ("2025-01-08") false [] ("2025-01-06")]

/-- C6 counterexample: at a concrete announce-flow claim interaction the
lookup does fail, and the claim is persisted, but the callback ends with
the uncaught missing-table error instead of falling back and refreshing
the view — its outcome is the error, not a view-refresh effect. -/
theorem C6_announce_claim_counterexample :
    (make_claim_callback dbC6 stC6 ("2025-01-06") 99 1 42).2
        = Except.error ("no such table: annoucements")
    ∧ get_task (make_claim_callback dbC6 stC6 ("2025-01-06") 99 1 42).1 1
        = some (mkTask 1 ("2025-01-08") false [42] ("2025-01-06")) :=
  ⟨rfl, rfl⟩

/-- C6 amended: under the schema created by init_db the announcement
lookup always fails, but by raising the missing-table error rather than
returning no row: the callback performs and persists the claim (which
precedes the lookup) and then ends with that error, so it neither falls
back to the week captured at announce time nor refreshes the view. -/
theorem C6_announce_claim_lookup_raises (db : DB) (st : Store) (wk : String)
    (message_id task_id user_id : Nat) (hdb : db.tables = init_db_tables) :
    get_announcement_for_message db message_id
        = Except.error ("no such table: annoucements")
    ∧ (make_claim_callback db st wk message_id task_id user_id).1
        = (claim_task st task_id user_id).1
    ∧ (make_claim_callback db st wk message_id task_id user_id).2
        = Except.error ("no such table: annoucements") := by
  have hlookup : get_announcement_for_message db message_id
      = Except.error ("no such table: annoucements") := by
    unfold get_announcement_for_message
    rw [if_neg (by rw [hdb]; decide)]
  refine ⟨hlookup, ?_, ?_⟩
  · unfold make_claim_callback
    rw [hlookup]
  · unfold make_claim_callback
    rw [hlookup]

/-- Witness for the amended C6 at a concrete input: the lookup raises for
an arbitrary message id under the init_db schema. -/
theorem C6_announce_claim_lookup_raises_witness :
    get_announcement_for_message dbC6 17 = Except.error ("no such table: annoucements") :=
  (C6_announce_claim_lookup_raises dbC6 stC6 ("2025-01-06") 17 1 42 (by decide)).1

/-- C10: listTasksForWeek returns only tasks whose stored week_start
equals the query argument, in ascending due_date order, and the open-only
variant returns only tasks with completed = false, same week filter, same
order. -/
theorem C10_list_tasks_for_week (st : Store) (ws : String) :
    (∀ t ∈ get_tasks_for_week st ws, t.week_start = ws)
    ∧ List.Sorted dueLe (get_tasks_for_week st ws)
    ∧ (∀ t ∈ get_open_tasks_for_week st ws, t.week_start = ws ∧ t.completed = false)
    ∧ List.Sorted dueLe (get_open_tasks_for_week st ws) := by
  refine ⟨?_, ?_, ?_, ?_⟩
  · intro t ht
    unfold get_tasks_for_week at ht
    rw [List.mem_insertionSort] at ht
    have hf := (List.mem_filter.mp ht).2
    simpa using hf
  · exact List.sorted_insertionSort dueLe _
  · intro t ht
    unfold get_open_tasks_for_week at ht
    rw [List.mem_insertionSort] at ht
    have hf := (List.mem_filter.mp ht).2
    simp only [Bool.and_eq_true, beq_iff_eq] at hf
    exact hf
  · exact List.sorted_insertionSort dueLe _

/-- Witness for C10 at a concrete input: a task returned by the open-only
query for week w has week_start w and is not completed. -/
theorem C10_list_tasks_for_week_witness :
    (mkTask 2 ("2025-01-03") false [] ("w")).week_start = ("w")
    ∧ (mkTask 2 ("2025-01-03") false [] ("w")).completed = false :=
  (C10_list_tasks_for_week [mkTask 1 ("2025-01-05") false [] ("w"),
      mkTask 2 ("2025-01-03") false [] ("w")] ("w")).2.2.1
    (mkTask 2 ("2025-01-03") false [] ("w"))
    ((List.mem_insertionSort dueLe).mpr
      (List.mem_filter.mpr ⟨by decide, by decide⟩))

end ProjectBot
